import Mathlib

/-!
Verification development for the BhashaLLM handwriting recognition repository.

The core under study is the DrawingCanvas component: a raster canvas with a
snapshot history stack (undo / redo / jump / clear), a resize reconciler, and
pointer-driven stroke input.  A second part models the analyzeHandwriting
service wrapper.  Definitions mirror the TypeScript source; machine pixels are
plain naturals, the canvas 2d context is modelled by explicit state.
-/

namespace Bhasha

/-- The fixed background color of the canvas (#1a0f05 in the source). -/
def bgColor : Nat := 0x1a0f05

/-- A raster pixel buffer: the canvas backing store or a captured ImageData.
Pixels are stored row-major; every pixel is solid (alpha plays no role), so a single Nat per pixel
suffices for the properties under study. -/
structure ImageData where
  width : Nat
  height : Nat
  data : List Nat
  deriving Repr, DecidableEq

/-- Pixel at column x, row y (0 when out of range of the stored list). -/
def ImageData.pixel (b : ImageData) (x y : Nat) : Nat :=
  b.data.getD (y * b.width + x) 0

/-- Well-formedness: the stored list has exactly width * height entries. -/
def ImageData.WF (b : ImageData) : Prop :=
  b.data.length = b.width * b.height

instance (b : ImageData) : Decidable b.WF := by
  unfold ImageData.WF; infer_instance

/-- A freshly allocated, background-filled buffer: models setting
canvas.width / canvas.height followed by the background fillRect that the
resize handler performs over the whole surface. -/
def blankImage (w h : Nat) : ImageData :=
  ⟨w, h, List.replicate (w * h) bgColor⟩

/-- Stamp src onto dst at the origin, clipped to the dst bounds, keeping the
dst dimensions.  This models both ctx.putImageData(src, 0, 0) and the
untransformed ctx.drawImage(tempCanvas, 0, 0): with solid pixels,
source-over compositing is plain overwrite. -/
def overlayAt (dst src : ImageData) : ImageData :=
  ⟨dst.width, dst.height,
    (List.range (dst.width * dst.height)).map fun i =>
      if i % dst.width < src.width ∧ i / dst.width < src.height then
        src.pixel (i % dst.width) (i / dst.width)
      else
        dst.pixel (i % dst.width) (i / dst.width)⟩

/-- ctx.fillRect(0, 0, w, h) under a scale transform: fills the axis-aligned
rectangle of rw by rh physical pixels anchored at the origin with color c,
clipped to the buffer. -/
def fillRectFrom0 (b : ImageData) (rw rh c : Nat) : ImageData :=
  ⟨b.width, b.height,
    (List.range (b.width * b.height)).map fun i =>
      if i % b.width < rw ∧ i / b.width < rh then c
      else b.pixel (i % b.width) (i / b.width)⟩

/-- Write one pixel (no-op out of bounds). -/
def paintPoint (b : ImageData) (x y c : Nat) : ImageData :=
  if x < b.width ∧ y < b.height then
    ⟨b.width, b.height, b.data.set (y * b.width + x) c⟩
  else b

/-- Stand-in for the platform stroke rasterizer: ctx.stroke() over the current
path.  The platform draws rounded-cap segments; the claims under study never
depend on the rasterization pattern, only on whether the buffer changes, so
the model paints each path vertex (scaled by the context transform). -/
def strokePath (b : ImageData) (pts : List (Nat × Nat)) (c scale : Nat) : ImageData :=
  pts.foldl (fun acc q => paintPoint acc (q.1 * scale) (q.2 * scale) c) b

/-- Abstraction of canvas.toDataURL with low quality: a lossy preview encoding
used only for UI thumbnails, never for restoration. -/
def thumbnailOf (b : ImageData) : Nat :=
  b.width * b.height

/-- One history entry, mirroring the HistoryState interface of the source:
id (Date.now()), full ImageData copy, thumbnail data-URL, timestamp. -/
structure HistoryState where
  id : Nat
  imageData : ImageData
  thumbnail : Nat
  timestamp : Nat
  deriving Repr, DecidableEq

/-- The drawing tool. -/
inductive Tool where
  | pen
  | eraser
  deriving Repr, DecidableEq

/-- The props of the DrawingCanvas component. -/
structure Props where
  tool : Tool
  brushSize : Nat
  color : Nat
  isAnalyzing : Bool
  deriving Repr, DecidableEq

/-- strokeStyle derived from the props: the eraser paints background color. -/
def styleColor (p : Props) : Nat :=
  if p.tool = Tool.eraser then bgColor else p.color

/-- The state of the DrawingCanvas component.  ctxOk models whether
contextRef.current (and the canvas element) is non-null; ctxScale is the
device-pixel-ratio scale applied to the context at the last reallocation;
path is the current 2d-context path (beginPath / moveTo / lineTo);
nextId stands in for the Date.now() clock, strictly monotone. -/
structure CanvasState where
  ctxOk : Bool
  ctxScale : Nat
  lineWidth : Nat
  strokeStyle : Nat
  buffer : ImageData
  historyStack : List HistoryState
  currentIndex : Int
  isDrawing : Bool
  path : List (Nat × Nat)
  nextId : Nat
  deriving Repr, DecidableEq

/-- Component state at mount: no context yet, zero-area buffer, empty history,
currentIndex = -1, not drawing. -/
def initState : CanvasState :=
  { ctxOk := false
    ctxScale := 1
    lineWidth := 4
    strokeStyle := 0xffffff
    buffer := ⟨0, 0, []⟩
    historyStack := []
    currentIndex := -1
    isDrawing := false
    path := []
    nextId := 0 }

/-- The snapshot that saveSnapshot would build from the current state. -/
def newSnapshot (s : CanvasState) : HistoryState :=
  ⟨s.nextId, s.buffer, thumbnailOf s.buffer, s.nextId⟩

/-- saveSnapshot from the source: returns early when canvas or context is
null; otherwise captures getImageData of the full buffer, truncates the stack
to slice(0, currentIndex + 1), appends the new state and increments
currentIndex.  currentIndex is -1 only before the first capture, so the toNat
coercion agrees with the JavaScript slice bound. -/
def saveSnapshot (s : CanvasState) : CanvasState :=
  if s.ctxOk then
    { s with
      historyStack := s.historyStack.take (s.currentIndex + 1).toNat ++ [newSnapshot s]
      currentIndex := s.currentIndex + 1
      nextId := s.nextId + 1 }
  else s

/-- restoreSnapshot(index) from the source: historyStack[index] is undefined
outside 0 <= index < length, and the body runs only when canvas, context and
that entry all exist; then it putImageData-s the stored pixels at the origin
and sets currentIndex := index. -/
def restoreSnapshot (index : Int) (s : CanvasState) : CanvasState :=
  match (if 0 ≤ index then s.historyStack.get? index.toNat else none) with
  | some st =>
      if s.ctxOk then
        { s with buffer := overlayAt s.buffer st.imageData, currentIndex := index }
      else s
  | none => s

/-- undo from the imperative handle: restore the previous snapshot when
currentIndex > 0, otherwise do nothing. -/
def undo (s : CanvasState) : CanvasState :=
  if 0 < s.currentIndex then restoreSnapshot (s.currentIndex - 1) s else s

/-- redo from the imperative handle: restore the next snapshot when
currentIndex < historyStack.length - 1, otherwise do nothing. -/
def redo (s : CanvasState) : CanvasState :=
  if s.currentIndex < (s.historyStack.length : Int) - 1 then
    restoreSnapshot (s.currentIndex + 1) s
  else s

/-- clear from the imperative handle: when canvas, context and container
exist, fill the container rectangle (w by h logical pixels, scaled by the
context transform) with the background color, then saveSnapshot. -/
def clear (w h : Nat) (s : CanvasState) : CanvasState :=
  if s.ctxOk then
    saveSnapshot
      { s with buffer := fillRectFrom0 s.buffer (w * s.ctxScale) (h * s.ctxScale) bgColor }
  else s

/-- handleResize from the source, for a container measuring w by h logical
pixels at device pixel ratio dpr.  Returns unchanged when the physical buffer
already has the target size.  Otherwise: remember the live pixels when the
old buffer has positive area; reallocate (background-filled) at the new size
with a freshly configured, dpr-scaled context; then either redraw the saved
live pixels, or, with no saved pixels, push the initial blank snapshot when
the history is empty, else repaint from the snapshot at currentIndex.  The
inner saveSnapshot call runs before contextRef.current is assigned, so it is
gated on the OLD context flag, exactly as in the source; the flag becomes
true only at the end. -/
def handleResize (p : Props) (w h dpr : Nat) (s : CanvasState) : CanvasState :=
  if s.buffer.width = w * dpr ∧ s.buffer.height = h * dpr then s
  else
    let temp : Option ImageData :=
      if 0 < s.buffer.width ∧ 0 < s.buffer.height then some s.buffer else none
    let s1 : CanvasState :=
      { s with
        buffer := blankImage (w * dpr) (h * dpr)
        ctxScale := dpr
        lineWidth := p.brushSize
        strokeStyle := styleColor p }
    let s2 : CanvasState :=
      match temp with
      | some old => { s1 with buffer := overlayAt s1.buffer old }
      | none =>
          if s1.historyStack.length = 0 then
            saveSnapshot s1
          else
            match (if 0 ≤ s1.currentIndex then s1.historyStack.get? s1.currentIndex.toNat else none) with
            | some st => { s1 with buffer := overlayAt s1.buffer st.imageData }
            | none => s1
    { s2 with ctxOk := true }

/-- The props effect: when the context exists, push lineWidth and strokeStyle
from the current props into it. -/
def applyStyleProps (p : Props) (s : CanvasState) : CanvasState :=
  if s.ctxOk then { s with lineWidth := p.brushSize, strokeStyle := styleColor p }
  else s

/-- startDrawing: a full no-op while isAnalyzing; otherwise beginPath and
moveTo on the (possibly null) context and set isDrawing.  Note isDrawing is
set even when the context is null, as in the source. -/
def startDrawing (p : Props) (pt : Nat × Nat) (s : CanvasState) : CanvasState :=
  if p.isAnalyzing then s
  else { s with path := if s.ctxOk then [pt] else s.path, isDrawing := true }

/-- draw: a no-op unless a stroke is active and not analyzing; otherwise
lineTo the new point and stroke the whole current path. -/
def draw (p : Props) (pt : Nat × Nat) (s : CanvasState) : CanvasState :=
  if !s.isDrawing || p.isAnalyzing then s
  else if s.ctxOk then
    let newPath := s.path ++ [pt]
    { s with
      path := newPath
      buffer := strokePath s.buffer newPath s.strokeStyle s.ctxScale }
  else s

/-- finishDrawing: when a stroke is active, closePath (no pixel effect),
clear the isDrawing flag and capture a snapshot.  It does NOT consult the
isAnalyzing prop. -/
def finishDrawing (s : CanvasState) : CanvasState :=
  if s.isDrawing then saveSnapshot { s with isDrawing := false } else s

/-- An undo or redo command from the toolbar. -/
inductive URKind where
  | undoCmd
  | redoCmd
  deriving Repr, DecidableEq

/-- Run one undo/redo command. -/
def applyUR : URKind → CanvasState → CanvasState
  | URKind.undoCmd, s => undo s
  | URKind.redoCmd, s => redo s

/-- Run a sequence of undo/redo commands, first command first. -/
def applyURs (l : List URKind) (s : CanvasState) : CanvasState :=
  l.foldl (fun acc k => applyUR k acc) s

/-- One pointer-input event delivered to the canvas. -/
inductive InputOp where
  | strokeStart (pt : Nat × Nat)
  | strokeMove (pt : Nat × Nat)
  | strokeEnd
  deriving Repr, DecidableEq

/-- Dispatch one input event under the given props. -/
def applyInput (p : Props) : InputOp → CanvasState → CanvasState
  | InputOp.strokeStart pt, s => startDrawing p pt s
  | InputOp.strokeMove pt, s => draw p pt s
  | InputOp.strokeEnd, s => finishDrawing s

/-- Run a sequence of input events, first event first. -/
def applyInputs (p : Props) (l : List InputOp) (s : CanvasState) : CanvasState :=
  l.foldl (fun acc op => applyInput p op acc) s

/-- One operation of the history core: capture, undo, redo, jump-to-index,
clear, resize. -/
inductive CoreOp where
  | capture
  | undoOp
  | redoOp
  | jump (i : Int)
  | clearOp (w h : Nat)
  | resize (p : Props) (w h dpr : Nat)
  deriving Repr, DecidableEq

/-- Dispatch one core operation. -/
def applyCoreOp : CoreOp → CanvasState → CanvasState
  | CoreOp.capture, s => saveSnapshot s
  | CoreOp.undoOp, s => undo s
  | CoreOp.redoOp, s => redo s
  | CoreOp.jump i, s => restoreSnapshot i s
  | CoreOp.clearOp w h, s => clear w h s
  | CoreOp.resize p w h dpr, s => handleResize p w h dpr s

/-- The history index invariant: holds from the moment the initial snapshot
has been recorded. -/
def HistInv (s : CanvasState) : Prop :=
  0 ≤ s.currentIndex ∧ s.currentIndex < (s.historyStack.length : Int)

instance (s : CanvasState) : Decidable (HistInv s) := by
  unfold HistInv; infer_instance

/-! Part two: the analyzeHandwriting service wrapper. -/

/-- One poet insight entry of a RecognitionResult. -/
structure BhashaInsight where
  poet : String
  mood : String
  content : String
  deriving Repr, DecidableEq

/-- One candidate interpretation of a RecognitionResult. -/
structure Candidate where
  label : String
  probability : Int
  deriving Repr, DecidableEq

/-- The RecognitionResult record returned by analyzeHandwriting. -/
structure RecognitionResult where
  recognizedText : String
  confidence : Int
  isQuestion : Bool
  bhashaInsights : List BhashaInsight
  suggestedQuestions : List String
  candidates : List Candidate
  processingTimeMs : Nat
  deriving Repr, DecidableEq

/-- The JSON object parsed from the model response.  A field is none when it
is absent from the JSON or has the wrong shape (the source guards with
truthiness or Array.isArray). -/
structure ParsedData where
  recognizedText : Option String
  confidence : Option Int
  isQuestion : Option Bool
  bhashaInsights : Option (List BhashaInsight)
  suggestedQuestions : Option (List String)
  candidates : Option (List Candidate)
  deriving Repr, DecidableEq

/-- Membership in the JavaScript regex class backslash-s (whitespace),
which is also exactly the set String.prototype.trim removes. -/
def isJsSpace (c : Char) : Bool :=
  let n := c.toNat
  n = 0x9 || n = 0xA || n = 0xB || n = 0xC || n = 0xD || n = 0x20 ||
  n = 0xA0 || n = 0x1680 || (0x2000 ≤ n && n ≤ 0x200A) ||
  n = 0x2028 || n = 0x2029 || n = 0x202F || n = 0x205F || n = 0x3000 ||
  n = 0xFEFF

/-- JavaScript String.prototype.trim. -/
def jsTrim (t : String) : String :=
  String.mk (((t.toList.dropWhile isJsSpace).reverse.dropWhile isJsSpace).reverse)

/-- One character of the Bengali validation class: the Bengali block 0980-09FF
(which contains the digit range 09E6-09EF the regex repeats), whitespace, the
zero-width (non-)joiners, and the listed ASCII punctuation
(comma 44, period 46, semicolon 59, colon 58, bang 33, question 63,
hyphen 45, apostrophe 39, double quote 34, parentheses 40 and 41). -/
def isBengaliAllowed (c : Char) : Bool :=
  let n := c.toNat
  (0x980 ≤ n && n ≤ 0x9FF) || (0x9E6 ≤ n && n ≤ 0x9EF) || isJsSpace c ||
  n = 0x200C || n = 0x200D ||
  n = 44 || n = 46 || n = 59 || n = 58 || n = 33 || n = 63 ||
  n = 45 || n = 39 || n = 34 || n = 40 || n = 41

/-- The anchored regex test of the source on an already-trimmed string:
one or more characters, all from the allowed class. -/
def bengaliTest (t : String) : Bool :=
  !t.isEmpty && t.toList.all isBengaliAllowed

/-- JavaScript String.prototype.includes. -/
def containsStr (s sub : String) : Bool :=
  (s.splitOn sub).length > 1

/-- The catch-branch message classifier of analyzeHandwriting. -/
def errorTextFor (msg : String) : String :=
  if containsStr msg "API Key" then
    "API Key Error: Check .env file"
  else if containsStr msg "token" || containsStr msg "length" || containsStr msg "limit" then
    "Error: Text too long or exceeded limits. Please try with a shorter text."
  else if containsStr msg "quota" || containsStr msg "rate limit" then
    "Error: Server quota exceeded. Please try again later."
  else
    "Error: " ++ String.mk (msg.toList.take 100)

/-- The catch branch of analyzeHandwriting: classify the error message
(defaulting a missing message to Unknown error) and return the sentinel
result with zero confidence and empty arrays. -/
def errorResult (msg : Option String) (t : Nat) : RecognitionResult :=
  { recognizedText := errorTextFor (msg.getD "Unknown error")
    confidence := 0
    isQuestion := false
    bhashaInsights := []
    suggestedQuestions := []
    candidates := []
    processingTimeMs := t }

/-- How one call to analyzeHandwriting unfolds at its external boundaries:
the API key is missing; the generateContent call rejects with some message;
the response has no text; the response text is not valid JSON; or it parses
to a data object. -/
inductive ApiOutcome where
  | missingKey
  | apiCallFailed (msg : Option String)
  | emptyResponse
  | parseFailed
  | parsed (d : ParsedData)
  deriving Repr, DecidableEq

/-- analyzeHandwriting from the source, with the I/O boundary reified as an
ApiOutcome and the measured elapsed time as t.  Every internal throw is
caught by the enclosing catch, which returns the errorResult sentinel, so the
function is total: the promise always resolves.  On a parsed response the
Bengali-only validation runs on the trimmed recognizedText and the reject
branch zeroes everything except candidates; the success branch defaults each
missing field. -/
def analyzeHandwriting (o : ApiOutcome) (t : Nat) : RecognitionResult :=
  match o with
  | ApiOutcome.missingKey =>
      errorResult (some "API Key not found. Please set GEMINI_API_KEY in your .env file") t
  | ApiOutcome.apiCallFailed msg => errorResult msg t
  | ApiOutcome.emptyResponse => errorResult (some "No response text generated") t
  | ApiOutcome.parseFailed => errorResult (some "Failed to parse response as JSON") t
  | ApiOutcome.parsed d =>
      if !bengaliTest (jsTrim (d.recognizedText.getD ""))
          || (jsTrim (d.recognizedText.getD "")).isEmpty then
        { recognizedText := ""
          confidence := 0
          isQuestion := false
          bhashaInsights := []
          suggestedQuestions := []
          candidates := d.candidates.getD []
          processingTimeMs := t }
      else
        { recognizedText := d.recognizedText.getD ""
          confidence := d.confidence.getD 0
          isQuestion := d.isQuestion.getD false
          bhashaInsights := d.bhashaInsights.getD []
          suggestedQuestions := d.suggestedQuestions.getD []
          candidates := d.candidates.getD []
          processingTimeMs := t }

/-- The shape common to all failure results of analyzeHandwriting: zero
confidence, not a question, and all three arrays empty. -/
def errShape (r : RecognitionResult) : Prop :=
  r.confidence = 0 ∧ r.isQuestion = false ∧ r.bhashaInsights = [] ∧
  r.suggestedQuestions = [] ∧ r.candidates = []

instance (r : RecognitionResult) : Decidable (errShape r) := by
  unfold errShape; infer_instance

/-! Concrete example states, reachable from the mount state by the
component operations.  Used as witnesses and counterexamples. -/

/-- Pen props with analysis idle. -/
def propsPen : Props :=
  { tool := Tool.pen, brushSize := 4, color := 0xffffff, isAnalyzing := false }

/-- Pen props while an analysis is in flight. -/
def propsBusy : Props :=
  { tool := Tool.pen, brushSize := 4, color := 0xffffff, isAnalyzing := true }

/-- After the first resize of the mounted component to a 1 by 1 container:
the context now exists, but the initial snapshot was skipped because
contextRef was still null inside that very resize call. -/
def exResized : CanvasState := handleResize propsPen 1 1 1 initState

/-- After a first (empty) stroke: the blank snapshot is now recorded,
history length 1, currentIndex 0. -/
def exInit : CanvasState := finishDrawing (startDrawing propsPen (0, 0) exResized)

/-- After one painted stroke: history [blank, stroke], currentIndex 1. -/
def exStroke : CanvasState :=
  finishDrawing (draw propsPen (0, 0) (startDrawing propsPen (0, 0) exInit))

/-- After a second painted stroke: history of length 3, currentIndex 2. -/
def exStroke2 : CanvasState :=
  finishDrawing (draw propsPen (0, 0) (startDrawing propsPen (0, 0) exStroke))

/-- exStroke after one undo: currentIndex 0 with a redoable future. -/
def exBack : CanvasState := undo exStroke

/-- exStroke2 after two undos: currentIndex 0, history still of length 3. -/
def exBack2 : CanvasState := undo (undo exStroke2)

/-- exBack2 with a stroke in progress: live pixels not yet captured by any
snapshot, history length 3, currentIndex 0. -/
def exMidStroke : CanvasState :=
  draw propsPen (0, 0) (startDrawing propsPen (0, 0) exBack2)

/-- A stroke begun (while idle) but not yet finished, with empty history. -/
def exPending : CanvasState := startDrawing propsPen (0, 0) exResized

/-- The frame relation of undo and redo: t agrees with s on every component
except possibly the pixel buffer and currentIndex.  In particular the history
stack itself (its length, each stored snapshot with its pixel content, and
their order) is identical. -/
def sameExceptBufferIndex (s t : CanvasState) : Prop :=
  t.ctxOk = s.ctxOk ∧ t.ctxScale = s.ctxScale ∧ t.lineWidth = s.lineWidth ∧
  t.strokeStyle = s.strokeStyle ∧ t.historyStack = s.historyStack ∧
  t.isDrawing = s.isDrawing ∧ t.path = s.path ∧ t.nextId = s.nextId

/-! Helper lemmas on pixel buffers. -/

theorem getD_range_map (n : Nat) (f : Nat → Nat) (i : Nat) (h : i < n) :
    ((List.range n).map f).getD i 0 = f i := by
  simp [List.getD_eq_getElem?_getD, List.getElem?_map, List.getElem?_range, h]

theorem rowmajor_index_lt (x y W H : Nat) (hx : x < W) (hy : y < H) :
    y * W + x < W * H := by
  calc y * W + x < (y + 1) * W := by rw [Nat.succ_mul]; omega
    _ ≤ H * W := Nat.mul_le_mul_right W hy
    _ = W * H := Nat.mul_comm H W

theorem overlayAt_width (dst src : ImageData) : (overlayAt dst src).width = dst.width := rfl

theorem overlayAt_height (dst src : ImageData) : (overlayAt dst src).height = dst.height := rfl

theorem pixel_overlayAt (dst src : ImageData) (x y : Nat)
    (hx : x < dst.width) (hy : y < dst.height) :
    (overlayAt dst src).pixel x y =
      if x < src.width ∧ y < src.height then src.pixel x y else dst.pixel x y := by
  have hW : 0 < dst.width := by omega
  have hmod : (y * dst.width + x) % dst.width = x := by
    rw [Nat.add_comm, Nat.add_mul_mod_self_right]
    exact Nat.mod_eq_of_lt hx
  have hdiv : (y * dst.width + x) / dst.width = y := by
    rw [Nat.add_comm, Nat.add_mul_div_right _ _ hW, Nat.div_eq_of_lt hx]
    omega
  show ((List.range (dst.width * dst.height)).map _).getD (y * dst.width + x) 0 = _
  rw [getD_range_map _ _ _ (rowmajor_index_lt x y dst.width dst.height hx hy), hmod, hdiv]

theorem overlayAt_eq_src (dst src : ImageData)
    (hw : dst.width = src.width) (hh : dst.height = src.height) (hwf : src.WF) :
    overlayAt dst src = src := by
  rcases src with ⟨sw, sh, sd⟩
  rcases dst with ⟨dw, dh, dd⟩
  simp only [ImageData.WF] at hwf
  simp only at hw hh
  subst hw hh
  unfold overlayAt
  simp only [ImageData.mk.injEq, true_and]
  apply List.ext_getElem?
  intro i
  by_cases hi : i < dw * dh
  · have hW : 0 < dw := by
      rcases Nat.eq_zero_or_pos dw with h0 | h0
      · subst h0; simp at hi
      · exact h0
    have hdivlt : i / dw < dh := Nat.div_lt_of_lt_mul (by omega)
    have hdm := Nat.div_add_mod i dw
    have hidx : i / dw * dw + i % dw = i := by
      rw [Nat.mul_comm (i / dw) dw]; exact hdm
    rw [List.getElem?_map, List.getElem?_range hi]
    simp only [Option.map_some']
    have hcond : i % dw < dw ∧ i / dw < dh := ⟨Nat.mod_lt i hW, hdivlt⟩
    rw [if_pos hcond]
    show some (ImageData.pixel ⟨dw, dh, sd⟩ (i % dw) (i / dw)) = sd[i]?
    unfold ImageData.pixel
    simp only
    rw [hidx, List.getD_eq_getElem?_getD, List.getElem?_eq_getElem (by omega : i < sd.length)]
    simp
  · have hlen1 : dw * dh ≤ i := Nat.le_of_not_lt hi
    rw [List.getElem?_eq_none (by simpa using hlen1), List.getElem?_eq_none (by omega)]

theorem fillRectFrom0_width (b : ImageData) (rw rh c : Nat) :
    (fillRectFrom0 b rw rh c).width = b.width := rfl

theorem fillRectFrom0_height (b : ImageData) (rw rh c : Nat) :
    (fillRectFrom0 b rw rh c).height = b.height := rfl

theorem fillRectFrom0_WF (b : ImageData) (rw rh c : Nat) :
    (fillRectFrom0 b rw rh c).WF := by
  unfold fillRectFrom0 ImageData.WF
  simp

theorem pixel_fillRectFrom0 (b : ImageData) (rw rh c x y : Nat)
    (hx : x < b.width) (hy : y < b.height) (hxr : x < rw) (hyr : y < rh) :
    (fillRectFrom0 b rw rh c).pixel x y = c := by
  have hW : 0 < b.width := by omega
  have hmod : (y * b.width + x) % b.width = x := by
    rw [Nat.add_comm, Nat.add_mul_mod_self_right]
    exact Nat.mod_eq_of_lt hx
  have hdiv : (y * b.width + x) / b.width = y := by
    rw [Nat.add_comm, Nat.add_mul_div_right _ _ hW, Nat.div_eq_of_lt hx]
    omega
  show ((List.range (b.width * b.height)).map _).getD (y * b.width + x) 0 = _
  rw [getD_range_map _ _ _ (rowmajor_index_lt x y b.width b.height hx hy), hmod, hdiv]
  rw [if_pos ⟨hxr, hyr⟩]

/-! Helper lemmas on the canvas operations. -/

theorem saveSnapshot_of_ctxOk (s : CanvasState) (h : s.ctxOk = true) :
    saveSnapshot s =
      { s with
        historyStack := s.historyStack.take (s.currentIndex + 1).toNat ++ [newSnapshot s]
        currentIndex := s.currentIndex + 1
        nextId := s.nextId + 1 } := by
  simp [saveSnapshot, h]

theorem restoreSnapshot_of_get (s : CanvasState) (i : Int) (st : HistoryState)
    (h0 : 0 ≤ i) (hget : s.historyStack.get? i.toNat = some st) (hctx : s.ctxOk = true) :
    restoreSnapshot i s =
      { s with buffer := overlayAt s.buffer st.imageData, currentIndex := i } := by
  unfold restoreSnapshot
  rw [if_pos h0, hget]
  simp [hctx]

theorem restoreSnapshot_out_of_range (s : CanvasState) (i : Int)
    (h : i < 0 ∨ (s.historyStack.length : Int) ≤ i) :
    restoreSnapshot i s = s := by
  unfold restoreSnapshot
  rcases h with h | h
  · rw [if_neg (by omega)]
  · rw [if_pos (by omega)]
    rw [List.get?_eq_getElem?, List.getElem?_eq_none (by omega)]

theorem sameExceptBufferIndex_refl (s : CanvasState) : sameExceptBufferIndex s s :=
  ⟨rfl, rfl, rfl, rfl, rfl, rfl, rfl, rfl⟩

theorem sameExceptBufferIndex_trans {s t u : CanvasState}
    (h1 : sameExceptBufferIndex s t) (h2 : sameExceptBufferIndex t u) :
    sameExceptBufferIndex s u :=
  ⟨h2.1.trans h1.1, h2.2.1.trans h1.2.1, h2.2.2.1.trans h1.2.2.1,
   h2.2.2.2.1.trans h1.2.2.2.1, h2.2.2.2.2.1.trans h1.2.2.2.2.1,
   h2.2.2.2.2.2.1.trans h1.2.2.2.2.2.1, h2.2.2.2.2.2.2.1.trans h1.2.2.2.2.2.2.1,
   h2.2.2.2.2.2.2.2.trans h1.2.2.2.2.2.2.2⟩

theorem restoreSnapshot_sameExcept (i : Int) (s : CanvasState) :
    sameExceptBufferIndex s (restoreSnapshot i s) := by
  unfold restoreSnapshot
  split
  · split
    · exact ⟨rfl, rfl, rfl, rfl, rfl, rfl, rfl, rfl⟩
    · exact sameExceptBufferIndex_refl s
  · exact sameExceptBufferIndex_refl s

theorem undo_sameExcept (s : CanvasState) : sameExceptBufferIndex s (undo s) := by
  unfold undo
  split
  · exact restoreSnapshot_sameExcept _ s
  · exact sameExceptBufferIndex_refl s

theorem redo_sameExcept (s : CanvasState) : sameExceptBufferIndex s (redo s) := by
  unfold redo
  split
  · exact restoreSnapshot_sameExcept _ s
  · exact sameExceptBufferIndex_refl s

theorem saveSnapshot_HistInv (s : CanvasState) (h : HistInv s) :
    HistInv (saveSnapshot s) := by
  unfold saveSnapshot
  split
  · unfold HistInv at *
    simp only [List.length_append, List.length_take, List.length_singleton]
    push_cast
    omega
  · exact h

theorem restoreSnapshot_HistInv (i : Int) (s : CanvasState) (h : HistInv s) :
    HistInv (restoreSnapshot i s) := by
  by_cases h0 : 0 ≤ i
  · cases hget : s.historyStack.get? i.toNat with
    | none =>
        have hlen : (s.historyStack.length : Int) ≤ i := by
          rw [List.get?_eq_getElem?] at hget
          have := List.getElem?_eq_none_iff.mp hget
          omega
        rw [restoreSnapshot_out_of_range s i (Or.inr hlen)]
        exact h
    | some st =>
        by_cases hc : s.ctxOk = true
        · rw [restoreSnapshot_of_get s i st h0 hget hc]
          rw [List.get?_eq_getElem?] at hget
          have hlt := (List.getElem?_eq_some.mp hget).1
          refine ⟨h0, ?_⟩
          show i < (s.historyStack.length : Int)
          omega
        · have hid : restoreSnapshot i s = s := by
            unfold restoreSnapshot
            rw [if_pos h0, hget]
            simp [hc]
          rw [hid]
          exact h
  · rw [restoreSnapshot_out_of_range s i (Or.inl (by omega))]
    exact h

theorem undo_HistInv (s : CanvasState) (h : HistInv s) : HistInv (undo s) := by
  unfold undo
  split
  · exact restoreSnapshot_HistInv _ s h
  · exact h

theorem redo_HistInv (s : CanvasState) (h : HistInv s) : HistInv (redo s) := by
  unfold redo
  split
  · exact restoreSnapshot_HistInv _ s h
  · exact h

theorem clear_HistInv (w h : Nat) (s : CanvasState) (hinv : HistInv s) :
    HistInv (clear w h s) := by
  unfold clear
  split
  · exact saveSnapshot_HistInv _ hinv
  · exact hinv

theorem handleResize_hist_or (p : Props) (w h dpr : Nat) (s : CanvasState) :
    ((handleResize p w h dpr s).historyStack = s.historyStack ∧
      (handleResize p w h dpr s).currentIndex = s.currentIndex)
    ∨ s.historyStack.length = 0 := by
  unfold handleResize
  by_cases hsz : s.buffer.width = w * dpr ∧ s.buffer.height = h * dpr
  · rw [if_pos hsz]
    exact Or.inl ⟨rfl, rfl⟩
  · rw [if_neg hsz]
    by_cases harea : 0 < s.buffer.width ∧ 0 < s.buffer.height
    · simp only [harea, if_pos]
      exact Or.inl ⟨rfl, rfl⟩
    · simp only [harea, if_neg, if_false]
      by_cases hlen : s.historyStack.length = 0
      · exact Or.inr hlen
      · simp only [hlen, if_false, if_neg]
        cases hm : (if 0 ≤ s.currentIndex then s.historyStack.get? s.currentIndex.toNat else none) with
        | some st => exact Or.inl ⟨rfl, rfl⟩
        | none => exact Or.inl ⟨rfl, rfl⟩

theorem handleResize_HistInv (p : Props) (w h dpr : Nat) (s : CanvasState)
    (hinv : HistInv s) : HistInv (handleResize p w h dpr s) := by
  rcases handleResize_hist_or p w h dpr s with ⟨h1, h2⟩ | hlen
  · unfold HistInv at *
    rw [h1, h2]
    exact hinv
  · unfold HistInv at hinv
    omega

theorem undo_of_get (s : CanvasState) (st : HistoryState)
    (hpos : 0 < s.currentIndex)
    (hget : s.historyStack.get? (s.currentIndex - 1).toNat = some st)
    (hctx : s.ctxOk = true) :
    undo s = { s with buffer := overlayAt s.buffer st.imageData
                      currentIndex := s.currentIndex - 1 } := by
  unfold undo
  rw [if_pos hpos]
  exact restoreSnapshot_of_get s _ st (by omega) hget hctx

theorem redo_of_get (s : CanvasState) (st : HistoryState)
    (h0 : 0 ≤ s.currentIndex + 1)
    (hlt : s.currentIndex < (s.historyStack.length : Int) - 1)
    (hget : s.historyStack.get? (s.currentIndex + 1).toNat = some st)
    (hctx : s.ctxOk = true) :
    redo s = { s with buffer := overlayAt s.buffer st.imageData
                      currentIndex := s.currentIndex + 1 } := by
  unfold redo
  rw [if_pos hlt]
  exact restoreSnapshot_of_get s _ st (by omega) hget hctx

theorem get?_take_append_one {α : Type} (l : List α) (a : α) (i n : Nat)
    (hin : i < n) (hnl : n ≤ l.length) : (l.take n ++ [a]).get? i = l.get? i := by
  have h1 : i < (l.take n).length := by
    simp only [List.length_take]
    omega
  rw [List.get?_eq_getElem?, List.get?_eq_getElem?, List.getElem?_append, if_pos h1,
    List.getElem?_take, if_pos hin]

theorem clear_of_ctxOk (s : CanvasState) (w h : Nat) (hctx : s.ctxOk = true) :
    clear w h s =
      { s with
        buffer := fillRectFrom0 s.buffer (w * s.ctxScale) (h * s.ctxScale) bgColor
        historyStack := s.historyStack.take (s.currentIndex + 1).toNat
          ++ [⟨s.nextId,
               fillRectFrom0 s.buffer (w * s.ctxScale) (h * s.ctxScale) bgColor,
               thumbnailOf (fillRectFrom0 s.buffer (w * s.ctxScale) (h * s.ctxScale) bgColor),
               s.nextId⟩]
        currentIndex := s.currentIndex + 1
        nextId := s.nextId + 1 } := by
  unfold clear
  rw [if_pos hctx]
  exact saveSnapshot_of_ctxOk
    { s with buffer := fillRectFrom0 s.buffer (w * s.ctxScale) (h * s.ctxScale) bgColor } hctx

theorem analyzeHandwriting_parsed_invalid (d : ParsedData) (t : Nat)
    (hbool : (!bengaliTest (jsTrim (d.recognizedText.getD ""))
      || (jsTrim (d.recognizedText.getD "")).isEmpty) = true) :
    analyzeHandwriting (ApiOutcome.parsed d) t =
      { recognizedText := ""
        confidence := 0
        isQuestion := false
        bhashaInsights := []
        suggestedQuestions := []
        candidates := d.candidates.getD []
        processingTimeMs := t } := by
  simp only [analyzeHandwriting]
  rw [if_pos hbool]

/-! The claims. -/

/-- C1 (append-truncate): for a history of length N with ctx available and
0 <= currentIndex = k < N - 1, saveSnapshot (the capture after a completed
stroke or clear) truncates the stack to the first k + 1 entries, appends a
snapshot of the current buffer, yields length k + 2, and advances
currentIndex to the new tail.  Every snapshot formerly stored after index k
is discarded. -/
theorem claim_C1_append_truncate (s : CanvasState)
    (hctx : s.ctxOk = true) (h0 : 0 ≤ s.currentIndex)
    (hmid : s.currentIndex < (s.historyStack.length : Int) - 1) :
    (saveSnapshot s).historyStack
        = s.historyStack.take (s.currentIndex + 1).toNat ++ [newSnapshot s]
    ∧ (newSnapshot s).imageData = s.buffer
    ∧ ((saveSnapshot s).historyStack.length : Int) = s.currentIndex + 2
    ∧ (saveSnapshot s).currentIndex = s.currentIndex + 1
    ∧ (saveSnapshot s).currentIndex = ((saveSnapshot s).historyStack.length : Int) - 1 := by
  rw [saveSnapshot_of_ctxOk s hctx]
  refine ⟨rfl, rfl, ?_, rfl, ?_⟩ <;>
  · show _ = _
    simp only [List.length_append, List.length_take, List.length_singleton]
    push_cast
    omega

/-- Witness for C1 at the reachable state exBack (currentIndex 0, length 2). -/
theorem claim_C1_append_truncate_witness :
    (exBack.ctxOk = true ∧ 0 ≤ exBack.currentIndex ∧
      exBack.currentIndex < (exBack.historyStack.length : Int) - 1) ∧
    ((saveSnapshot exBack).historyStack.length : Int) = exBack.currentIndex + 2 :=
  ⟨⟨by decide, by decide, by decide⟩,
    (claim_C1_append_truncate exBack (by decide) (by decide) (by decide)).2.2.1⟩

/-- C3 (undo/redo boundary): undo at currentIndex 0 is a no-op on the whole
state (in particular buffer and index), and redo at the tail likewise. -/
theorem claim_C3_boundary_noops (s : CanvasState) :
    (s.currentIndex = 0 → undo s = s) ∧
    (s.currentIndex = (s.historyStack.length : Int) - 1 → redo s = s) := by
  constructor
  · intro h
    unfold undo
    rw [if_neg (by omega)]
  · intro h
    unfold redo
    rw [if_neg (by omega)]

/-- Witness for C3 at exInit: currentIndex 0 and length 1, so both boundary
conditions hold there at once. -/
theorem claim_C3_boundary_noops_witness : undo exInit = exInit ∧ redo exInit = exInit :=
  ⟨(claim_C3_boundary_noops exInit).1 (by decide),
   (claim_C3_boundary_noops exInit).2 (by decide)⟩

/-- C4 (history index invariant): once 0 <= currentIndex < length holds (as
it does from the moment the initial snapshot is recorded), every core
operation - capture, undo, redo, jump, clear, resize - preserves it, and the
history stays nonempty. -/
theorem claim_C4_invariant (s : CanvasState) (op : CoreOp) (hinv : HistInv s) :
    HistInv (applyCoreOp op s) ∧ (applyCoreOp op s).historyStack ≠ [] := by
  have main : HistInv (applyCoreOp op s) := by
    cases op with
    | capture => exact saveSnapshot_HistInv s hinv
    | undoOp => exact undo_HistInv s hinv
    | redoOp => exact redo_HistInv s hinv
    | jump i => exact restoreSnapshot_HistInv i s hinv
    | clearOp w h => exact clear_HistInv w h s hinv
    | resize p w h dpr => exact handleResize_HistInv p w h dpr s hinv
  refine ⟨main, ?_⟩
  intro hnil
  have h1 := main.1
  have h2 := main.2
  rw [hnil] at h2
  simp at h2
  omega

/-- Witness for C4 at exStroke with a capture operation. -/
theorem claim_C4_invariant_witness :
    HistInv exStroke ∧ HistInv (applyCoreOp CoreOp.capture exStroke) :=
  ⟨by decide, (claim_C4_invariant exStroke CoreOp.capture (by decide)).1⟩

/-- C2 counterexample: the claim quantifies over every reachable state, but
at the reachable state exBack (one stroke recorded, then one undo, so
currentIndex 0 with a redoable future) undo is a no-op while redo fires, so
the pair undo-then-redo changes currentIndex from 0 to 1 and swaps the
buffer from the blank snapshot to the stroke snapshot. -/
theorem claim_C2_counterexample :
    exBack.currentIndex = 0 ∧
    (redo (undo exBack)).currentIndex ≠ exBack.currentIndex ∧
    (redo (undo exBack)).buffer ≠ exBack.buffer :=
  ⟨by decide, by decide, by decide⟩

/-- C2 as amended: when currentIndex is strictly positive (so undo actually
fires), the buffer agrees with the snapshot at currentIndex (as it does
whenever no stroke is mid-flight and no resize intervened), that snapshot is
well formed, and the context exists, undo followed by redo restores the
buffer bit-identically and leaves currentIndex unchanged. -/
theorem claim_C2_undo_redo_inverse (s : CanvasState) (st : HistoryState)
    (hctx : s.ctxOk = true) (hpos : 0 < s.currentIndex)
    (hget : s.historyStack.get? s.currentIndex.toNat = some st)
    (hsync : s.buffer = st.imageData) (hwf : s.buffer.WF) :
    (redo (undo s)).buffer = s.buffer ∧
    (redo (undo s)).currentIndex = s.currentIndex := by
  have hget' := hget
  rw [List.get?_eq_getElem?] at hget'
  have hlt : s.currentIndex.toNat < s.historyStack.length :=
    (List.getElem?_eq_some.mp hget').1
  have hlt1 : (s.currentIndex - 1).toNat < s.historyStack.length := by omega
  obtain ⟨st1, hget1⟩ : ∃ st1, s.historyStack.get? (s.currentIndex - 1).toNat = some st1 := by
    rw [List.get?_eq_getElem?]
    exact ⟨_, List.getElem?_eq_getElem hlt1⟩
  have hu := undo_of_get s st1 hpos hget1 hctx
  have hr := redo_of_get
      { s with buffer := overlayAt s.buffer st1.imageData
               currentIndex := s.currentIndex - 1 } st
      (show 0 ≤ s.currentIndex - 1 + 1 by omega)
      (show s.currentIndex - 1 < (s.historyStack.length : Int) - 1 by omega)
      (by show s.historyStack.get? (s.currentIndex - 1 + 1).toNat = some st
          rw [show s.currentIndex - 1 + 1 = s.currentIndex by omega]
          exact hget)
      hctx
  have hbuf : overlayAt (overlayAt s.buffer st1.imageData) st.imageData = st.imageData := by
    refine overlayAt_eq_src _ _ ?_ ?_ ?_
    · rw [overlayAt_width, hsync]
    · rw [overlayAt_height, hsync]
    · rw [← hsync]; exact hwf
  rw [hu, hr]
  constructor
  · show overlayAt (overlayAt s.buffer st1.imageData) st.imageData = s.buffer
    rw [hbuf, hsync]
  · show s.currentIndex - 1 + 1 = s.currentIndex
    omega

/-- Witness for the amended C2 at the reachable state exStroke
(currentIndex 1 with the buffer in sync with snapshot 1). -/
theorem claim_C2_undo_redo_inverse_witness :
    (redo (undo exStroke)).buffer = exStroke.buffer ∧
    (redo (undo exStroke)).currentIndex = exStroke.currentIndex := by
  cases hm : exStroke.historyStack.get? exStroke.currentIndex.toNat with
  | none => exact absurd hm (by decide)
  | some st =>
      refine claim_C2_undo_redo_inverse exStroke st (by decide) (by decide) hm ?_ (by decide)
      have h2 : (exStroke.historyStack.get? exStroke.currentIndex.toNat).map
          HistoryState.imageData = some exStroke.buffer := by decide
      rw [hm] at h2
      simpa using h2.symm

/-- C7 counterexample: with a stroke begun while enabled (exPending) and the
busy flag then raised, the single input sequence [strokeEnd] still captures a
snapshot, changing the history length; finishDrawing never consults
isAnalyzing, so the three input operations are not all no-ops while
disabled. -/
theorem claim_C7_counterexample :
    propsBusy.isAnalyzing = true ∧ exPending.isDrawing = true ∧
    (applyInputs propsBusy [InputOp.strokeEnd] exPending).historyStack.length
      ≠ exPending.historyStack.length :=
  ⟨by decide, by decide, by decide⟩

/-- C7 as amended: while isAnalyzing is set AND no stroke is currently
active, every sequence of strokeStart / strokeMove / strokeEnd events is a
complete no-op on the state, so in particular the pixel buffer and the
history length never change.  (The amendment excludes the one failing case:
a stroke already active when the flag was raised, whose strokeEnd still
captures.) -/
theorem claim_C7_disabled_freeze (p : Props) (s : CanvasState) (l : List InputOp)
    (hbusy : p.isAnalyzing = true) (hidle : s.isDrawing = false) :
    applyInputs p l s = s := by
  induction l with
  | nil => rfl
  | cons op rest ih =>
      have hop : applyInput p op s = s := by
        cases op with
        | strokeStart pt => simp [applyInput, startDrawing, hbusy]
        | strokeMove pt => simp [applyInput, draw, hidle]
        | strokeEnd => simp [applyInput, finishDrawing, hidle]
      show applyInputs p rest (applyInput p op s) = s
      rw [hop]
      exact ih

/-- Witness for the amended C7 at exInit (no active stroke) under busy
props, with a three-event input sequence. -/
theorem claim_C7_disabled_freeze_witness :
    propsBusy.isAnalyzing = true ∧ exInit.isDrawing = false ∧
    applyInputs propsBusy
      [InputOp.strokeStart (0, 0), InputOp.strokeMove (1, 1), InputOp.strokeEnd]
      exInit = exInit :=
  ⟨by decide, by decide,
    claim_C7_disabled_freeze propsBusy exInit _ (by decide) (by decide)⟩

/-- C9 (frame property of undo/redo): any sequence of undo and redo commands
leaves every component of the state except the pixel buffer and currentIndex
unchanged; in particular the history stack (length, every stored snapshot
with its pixel content, and their order) is untouched. -/
theorem claim_C9_undo_redo_frame (s : CanvasState) (l : List URKind) :
    sameExceptBufferIndex s (applyURs l s) := by
  induction l generalizing s with
  | nil => exact sameExceptBufferIndex_refl s
  | cons k rest ih =>
      have h1 : sameExceptBufferIndex s (applyUR k s) := by
        cases k
        · exact undo_sameExcept s
        · exact redo_sameExcept s
      exact sameExceptBufferIndex_trans h1 (ih (applyUR k s))

/-- C8 (invalid jump rejected atomically): restoreSnapshot with an index
outside 0 <= index < length returns the state unchanged (the model is a
total function, so no exception is surfaced); with an in-range index and a
live context it stamps the stored snapshot onto the buffer, sets
currentIndex := index, and leaves the history sequence untruncated; when the
stored snapshot has the buffer dimensions and is well formed, the repainted
buffer equals the snapshot content exactly. -/
theorem claim_C8_jump (s : CanvasState) (i : Int) :
    ((i < 0 ∨ (s.historyStack.length : Int) ≤ i) → restoreSnapshot i s = s) ∧
    (∀ st : HistoryState, 0 ≤ i → s.historyStack.get? i.toNat = some st →
      s.ctxOk = true →
      restoreSnapshot i s
          = { s with buffer := overlayAt s.buffer st.imageData, currentIndex := i } ∧
      (restoreSnapshot i s).historyStack = s.historyStack ∧
      (st.imageData.width = s.buffer.width → st.imageData.height = s.buffer.height →
        st.imageData.WF → (restoreSnapshot i s).buffer = st.imageData)) := by
  constructor
  · exact restoreSnapshot_out_of_range s i
  · intro st h0 hget hctx
    have he := restoreSnapshot_of_get s i st h0 hget hctx
    refine ⟨he, by rw [he], ?_⟩
    intro hw hh hwf
    rw [he]
    show overlayAt s.buffer st.imageData = st.imageData
    exact overlayAt_eq_src _ _ hw.symm hh.symm hwf

/-- Witness for C8 at exStroke: jumping to the out-of-range index 5 changes
nothing, and jumping to the in-range index 0 sets currentIndex to 0 without
touching the history. -/
theorem claim_C8_jump_witness :
    restoreSnapshot 5 exStroke = exStroke ∧
    (restoreSnapshot 0 exStroke).currentIndex = 0 ∧
    (restoreSnapshot 0 exStroke).historyStack = exStroke.historyStack := by
  refine ⟨(claim_C8_jump exStroke 5).1 (by decide), ?_⟩
  cases hm : exStroke.historyStack.get? (0 : Int).toNat with
  | none => exact absurd hm (by decide)
  | some st =>
      have h := (claim_C8_jump exStroke 0).2 st (by decide) hm (by decide)
      constructor
      · rw [h.1]
      · exact h.2.1

/-- C5 (resize preserves live content): when the target physical size equals
the current buffer size, handleResize is a complete no-op; otherwise, when
the buffer has positive area (live pixel content exists, captured or not),
the reconciler redraws the saved live pixels onto the reallocated buffer
rather than repainting from any history snapshot: the history and
currentIndex are untouched and every coordinate inside both the old and the
new bounds holds exactly its pre-resize content. -/
theorem claim_C5_resize (s : CanvasState) (p : Props) (w h dpr : Nat) :
    ((s.buffer.width = w * dpr ∧ s.buffer.height = h * dpr) →
      handleResize p w h dpr s = s) ∧
    (0 < s.buffer.width → 0 < s.buffer.height →
      ¬(s.buffer.width = w * dpr ∧ s.buffer.height = h * dpr) →
      (handleResize p w h dpr s).buffer.width = w * dpr ∧
      (handleResize p w h dpr s).buffer.height = h * dpr ∧
      (handleResize p w h dpr s).historyStack = s.historyStack ∧
      (handleResize p w h dpr s).currentIndex = s.currentIndex ∧
      ∀ x y, x < s.buffer.width → y < s.buffer.height → x < w * dpr → y < h * dpr →
        (handleResize p w h dpr s).buffer.pixel x y = s.buffer.pixel x y) := by
  constructor
  · intro hsz
    unfold handleResize
    rw [if_pos hsz]
  · intro hw hh hsz
    have hres : handleResize p w h dpr s =
        { s with buffer := overlayAt (blankImage (w * dpr) (h * dpr)) s.buffer
                 ctxScale := dpr
                 lineWidth := p.brushSize
                 strokeStyle := styleColor p
                 ctxOk := true } := by
      unfold handleResize
      rw [if_neg hsz, if_pos (⟨hw, hh⟩ : 0 < s.buffer.width ∧ 0 < s.buffer.height)]
    rw [hres]
    refine ⟨rfl, rfl, rfl, rfl, ?_⟩
    intro x y hx hy hxw hyh
    show (overlayAt (blankImage (w * dpr) (h * dpr)) s.buffer).pixel x y
        = s.buffer.pixel x y
    rw [pixel_overlayAt _ _ x y hxw hyh, if_pos ⟨hx, hy⟩]

/-- Witness for C5 at exStroke: resizing to the same 1 by 1 size is a no-op,
and resizing to 2 by 2 preserves the pixel at the common coordinate (0,0). -/
theorem claim_C5_resize_witness :
    handleResize propsPen 1 1 1 exStroke = exStroke ∧
    (handleResize propsPen 2 2 1 exStroke).buffer.pixel 0 0
      = exStroke.buffer.pixel 0 0 :=
  ⟨(claim_C5_resize exStroke propsPen 1 1 1).1 (by decide),
    ((claim_C5_resize exStroke propsPen 2 2 1).2 (by decide) (by decide)
      (by decide)).2.2.2.2 0 0 (by decide) (by decide) (by decide) (by decide)⟩

/-- C6 counterexample: the claim asserts that clear never shortens the
history and that undo after clear restores the buffer content that existed
immediately before the clear.  At the reachable state exMidStroke (history
length 3, currentIndex 0 after two undos, and live uncommitted stroke
pixels) clear shortens the history from 3 to 2 entries, and undo after
clear repaints snapshot 0 instead of the live pre-clear pixels. -/
theorem claim_C6_counterexample :
    exMidStroke.historyStack.length = 3 ∧
    (clear 1 1 exMidStroke).historyStack.length = 2 ∧
    (undo (clear 1 1 exMidStroke)).buffer ≠ exMidStroke.buffer :=
  ⟨by decide, by decide, by decide⟩

/-- C6 as amended: clear follows the same truncate-on-write discipline as
any capture, so with the buffer in sync with the snapshot at currentIndex
(no uncommitted stroke), the context live, and the container rectangle
covering the buffer: clear fills the buffer with the background color,
appends that blank buffer as a new snapshot at the tail of the (possibly
truncated) history, advances currentIndex to the tail, a subsequent undo
restores the pre-clear buffer content exactly, and the blank snapshot stays
in the history after the undo. -/
theorem claim_C6_clear_restorable (s : CanvasState) (st : HistoryState) (w h : Nat)
    (hctx : s.ctxOk = true) (h0 : 0 ≤ s.currentIndex)
    (hget : s.historyStack.get? s.currentIndex.toNat = some st)
    (hsync : s.buffer = st.imageData) (hwf : s.buffer.WF)
    (hcw : s.buffer.width ≤ w * s.ctxScale) (hch : s.buffer.height ≤ h * s.ctxScale) :
    (∀ x y, x < s.buffer.width → y < s.buffer.height →
        (clear w h s).buffer.pixel x y = bgColor)
    ∧ (clear w h s).historyStack
        = s.historyStack.take (s.currentIndex + 1).toNat
            ++ [⟨s.nextId, (clear w h s).buffer, thumbnailOf (clear w h s).buffer, s.nextId⟩]
    ∧ (clear w h s).currentIndex = s.currentIndex + 1
    ∧ ((clear w h s).historyStack.length : Int) = s.currentIndex + 2
    ∧ (undo (clear w h s)).buffer = s.buffer
    ∧ (undo (clear w h s)).historyStack = (clear w h s).historyStack := by
  have hget' := hget
  rw [List.get?_eq_getElem?] at hget'
  have hlt : s.currentIndex.toNat < s.historyStack.length :=
    (List.getElem?_eq_some.mp hget').1
  rw [clear_of_ctxOk s w h hctx]
  set B : ImageData := fillRectFrom0 s.buffer (w * s.ctxScale) (h * s.ctxScale) bgColor with hB
  have hu := undo_of_get
      { s with
        buffer := B
        historyStack := s.historyStack.take (s.currentIndex + 1).toNat
          ++ [⟨s.nextId, B, thumbnailOf B, s.nextId⟩]
        currentIndex := s.currentIndex + 1
        nextId := s.nextId + 1 } st
      (show (0 : Int) < s.currentIndex + 1 by omega)
      (by show (s.historyStack.take (s.currentIndex + 1).toNat
              ++ [(⟨s.nextId, B, thumbnailOf B, s.nextId⟩ : HistoryState)]).get?
            (s.currentIndex + 1 - 1).toNat = some st
          rw [show s.currentIndex + 1 - 1 = s.currentIndex from by omega]
          rw [get?_take_append_one _ _ _ _ (by omega) (by omega)]
          exact hget)
      hctx
  refine ⟨?_, rfl, rfl, ?_, ?_, ?_⟩
  · intro x y hx hy
    exact pixel_fillRectFrom0 s.buffer _ _ _ x y hx hy (by omega) (by omega)
  · show ((s.historyStack.take (s.currentIndex + 1).toNat
        ++ [(⟨s.nextId, B, thumbnailOf B, s.nextId⟩ : HistoryState)]).length : Int)
        = s.currentIndex + 2
    simp only [List.length_append, List.length_take, List.length_singleton]
    push_cast
    omega
  · rw [hu]
    show overlayAt B st.imageData = s.buffer
    rw [overlayAt_eq_src B st.imageData
        (by rw [hB, fillRectFrom0_width, hsync])
        (by rw [hB, fillRectFrom0_height, hsync])
        (by rw [← hsync]; exact hwf)]
    exact hsync.symm
  · rw [hu]

/-- Witness for the amended C6 at exStroke (buffer in sync with the snapshot
at currentIndex 1, well formed, 1 by 1 buffer covered by the 1 by 1
container at scale 1). -/
theorem claim_C6_clear_restorable_witness :
    (undo (clear 1 1 exStroke)).buffer = exStroke.buffer ∧
    ((clear 1 1 exStroke).historyStack.length : Int) = exStroke.currentIndex + 2 := by
  cases hm : exStroke.historyStack.get? exStroke.currentIndex.toNat with
  | none => exact absurd hm (by decide)
  | some st =>
      have hsync : exStroke.buffer = st.imageData := by
        have h2 : (exStroke.historyStack.get? exStroke.currentIndex.toNat).map
            HistoryState.imageData = some exStroke.buffer := by decide
        rw [hm] at h2
        simpa using h2.symm
      have hh := claim_C6_clear_restorable exStroke st 1 1 (by decide) (by decide)
        hm hsync (by decide) (by decide) (by decide)
      exact ⟨hh.2.2.2.2.1, hh.2.2.2.1⟩

/-- C10 (totality of the analysis entry point): analyzeHandwriting is a
total function of the reified I/O outcome, so the promise always resolves;
on every internal failure (missing API key, API rejection with any message,
empty response, unparseable response) the result has confidence 0,
isQuestion false, and empty bhashaInsights, suggestedQuestions and
candidates; and on a parsed response whose recognized text is empty after
trimming or fails the Bengali-only test, the result has recognizedText "",
confidence 0, and empty bhashaInsights and suggestedQuestions. -/
theorem claim_C10_analysis_totality (t : Nat) :
    (∀ msg : Option String, errShape (analyzeHandwriting (ApiOutcome.apiCallFailed msg) t))
    ∧ errShape (analyzeHandwriting ApiOutcome.missingKey t)
    ∧ errShape (analyzeHandwriting ApiOutcome.emptyResponse t)
    ∧ errShape (analyzeHandwriting ApiOutcome.parseFailed t)
    ∧ (∀ d : ParsedData,
        bengaliTest (jsTrim (d.recognizedText.getD "")) = false ∨
          (jsTrim (d.recognizedText.getD "")).isEmpty = true →
        (analyzeHandwriting (ApiOutcome.parsed d) t).recognizedText = "" ∧
        (analyzeHandwriting (ApiOutcome.parsed d) t).confidence = 0 ∧
        (analyzeHandwriting (ApiOutcome.parsed d) t).isQuestion = false ∧
        (analyzeHandwriting (ApiOutcome.parsed d) t).bhashaInsights = [] ∧
        (analyzeHandwriting (ApiOutcome.parsed d) t).suggestedQuestions = []) := by
  refine ⟨fun msg => ⟨rfl, rfl, rfl, rfl, rfl⟩, ⟨rfl, rfl, rfl, rfl, rfl⟩,
    ⟨rfl, rfl, rfl, rfl, rfl⟩, ⟨rfl, rfl, rfl, rfl, rfl⟩, ?_⟩
  intro d hcond
  have hbool : (!bengaliTest (jsTrim (d.recognizedText.getD ""))
      || (jsTrim (d.recognizedText.getD "")).isEmpty) = true := by
    rcases hcond with hc | hc <;> simp [hc]
  rw [analyzeHandwriting_parsed_invalid d t hbool]
  exact ⟨rfl, rfl, rfl, rfl, rfl⟩

/-- Witness for C10: a failed API call yields the zeroed error shape, and a
parsed response whose text is the non-Bengali "hello" yields empty
recognizedText. -/
theorem claim_C10_analysis_totality_witness :
    errShape (analyzeHandwriting (ApiOutcome.apiCallFailed none) 0) ∧
    (bengaliTest (jsTrim "hello") = false ∨ (jsTrim "hello").isEmpty = true) ∧
    (analyzeHandwriting (ApiOutcome.parsed
        (⟨some "hello", none, none, none, none, none⟩ : ParsedData)) 0).recognizedText = "" := by
  refine ⟨(claim_C10_analysis_totality 0).1 none, Or.inl (by decide), ?_⟩
  exact ((claim_C10_analysis_totality 0).2.2.2.2
      (⟨some "hello", none, none, none, none, none⟩ : ParsedData) (Or.inl (by decide))).1

end Bhasha
